import Mathlib

/-!
Verification of the consilium orchestration core against its design notes.

The development shallowly embeds the Python modules `decision.py`,
`critic_editor.py`, `generator.py` and the graph wiring of `graph.py`.
Model calls (`chain.invoke`) and JSON decoding (`json.loads`) are external
collaborators; they are modelled as explicit parameters: a call oracle
`call : Nat → Nat → Except Unit String` (attempt number, generator index)
for the generator fan-out, and an `Option CriticVerdict` decode outcome for
the critic.  Python dicts preserve insertion order, so ordered mappings are
modelled as association lists.  `MAX_ITERATIONS` comes from a config module
that only sets constants; the decision function is parameterised by it.
-/

/-- The LangGraph state `AgentState` from `decision.py`.  The ordered mapping
`critiques_by_generator` is an insertion-ordered association list. -/
structure AgentState where
  topic : String
  file_content : Option String
  drafts : List String
  critiques : List String
  critiques_by_generator : List (Nat × List String)
  questions_for_user : List String
  user_response : Option String
  final_summary : Option String
  iteration_count : Nat
  drafts_to_redo : List Nat
  log_filename : String
  chat_uuid : String
deriving Repr, DecidableEq

/-- `decide_next_step` from `decision.py`: route to the next graph node.
Python truthiness of a list is non-emptiness. -/
def decide_next_step (MAX_ITERATIONS : Nat) (state : AgentState) : String :=
  if state.questions_for_user ≠ [] then "ask_user"
  else if state.iteration_count ≥ MAX_ITERATIONS then "editor"
  else if state.critiques ≠ [] then "generator"
  else "editor"

/-- Outcome of `json.loads` on a (cleaned) critic response, with string keys
of `critiques_by_generator` already converted through `int(key)`.  A `none`
field models an absent JSON key. -/
structure CriticVerdict where
  critiques_by_generator : Option (List (Nat × List String))
  questions_for_user : Option (List String)
  drafts_to_redo : Option (List Nat)
deriving Repr, DecidableEq

/-- The partial state update returned by `critic_node`. -/
structure CriticUpdate where
  critiques : List String
  critiques_by_generator : List (Nat × List String)
  questions_for_user : List String
  drafts_to_redo : List Nat
deriving Repr, DecidableEq

/-- `critic_node` from `critic_editor.py`, as a function of the decode
outcome.  `decoded = some v` models the `try` branch with `json.loads`
succeeding on the cleaned response, `decoded = none` models the
`json.JSONDecodeError`/`AttributeError` branch; `raw` is `response.content`.
On success the flattened list extends per-generator critiques in dict
insertion order; on failure the raw text becomes the critique for all three
indices and the redo set is `[1, 2, 3]`. -/
def critic_node (decoded : Option CriticVerdict) (raw : String) : CriticUpdate :=
  match decoded with
  | some result =>
    let cbg := result.critiques_by_generator.getD []
    { critiques := (cbg.map Prod.snd).flatten
      critiques_by_generator := cbg
      questions_for_user := result.questions_for_user.getD []
      drafts_to_redo := result.drafts_to_redo.getD [] }
  | none =>
    { critiques := [raw]
      critiques_by_generator := [(1, [raw]), (2, [raw]), (3, [raw])]
      questions_for_user := []
      drafts_to_redo := [1, 2, 3] }

/-- A chat message: (role, content), as the dicts stored in sessions. -/
abbrev Msg := String × String

/-- The per-run slice `_chat_sessions[chat_uuid]` of the global session
store in `generator.py`: an insertion-ordered dict from generator index to
message list. -/
abbrev Sessions := List (Nat × List Msg)

/-- Dict lookup on the per-run session store. -/
def slookup : Sessions → Nat → Option (List Msg)
  | [], _ => none
  | (k, v) :: rest, g => if k = g then some v else slookup rest g

/-- `_get_chat_session`: create an empty session for `g` if absent
(inserted at the end, as Python dict insertion does). -/
def getOrCreate (ss : Sessions) (g : Nat) : Sessions :=
  if (slookup ss g).isSome then ss else ss ++ [(g, [])]

/-- Append a message to the session stored under `g` (in-place list
mutation of the dict value). -/
def appendMsg (ss : Sessions) (g : Nat) (m : Msg) : Sessions :=
  ss.map fun p => if p.1 = g then (p.1, p.2 ++ [m]) else p

/-- Lookup in the `results` dict of the parallel fan-out. -/
def rlookup : List (Nat × String) → Nat → Option String
  | [], _ => none
  | (k, v) :: rest, g => if k = g then some v else rlookup rest g

/-- One `RunnableParallel.invoke` over the chains built for `idxs`: each
chain runs `prepare_input` (which creates the session entry if absent),
the model call, and `process_response` (which appends the assistant
message).  A failing call raises out of the parallel invoke.  Chains touch
disjoint session keys, so this sequential determinization is
observationally equivalent to the concurrent execution. -/
def runChains (call : Nat → Except Unit String) :
    Sessions → List Nat → Except Unit (Sessions × List (Nat × String))
  | ss, [] => .ok (ss, [])
  | ss, g :: rest =>
    let ss1 := getOrCreate ss g
    match call g with
    | .error e => .error e
    | .ok r =>
      let ss2 := appendMsg ss1 g ("assistant", r)
      match runChains call ss2 rest with
      | .error e => .error e
      | .ok (ss3, res) => .ok (ss3, (g, r) :: res)

/-- The canned user message appended after the fan-out. -/
def critic_fix_msg : String := "Получены замечания критика. Исправь черновик."

/-- One turn of the loop after the fan-out: get-or-create the session for
`g` and, if it is non-empty (Python `if session:`), append the canned user
message recording the revision request. -/
def fixStep (ss : Sessions) (g : Nat) : Sessions :=
  let ss1 := getOrCreate ss g
  if (slookup ss1 g).getD [] = [] then ss1
  else appendMsg ss1 g ("user", critic_fix_msg)

/-- The loop after the fan-out, over the (effective) redo list. -/
def appendFixRequests : List Nat → Sessions → Sessions
  | [], ss => ss
  | g :: rest, ss => appendFixRequests rest (fixStep ss g)

/-- Assembly of the final `drafts` list: for `i = 0, 1, 2`, take the fresh
result when index `i+1` is in the redo list and present in `results`,
otherwise keep the existing draft when it is present and truthy, otherwise
the empty string. -/
def assembleDrafts (redo : List Nat) (results : List (Nat × String))
    (existing : List String) : List String :=
  (List.range 3).map fun i =>
    match (if i + 1 ∈ redo then rlookup results (i + 1) else none) with
    | some r => r
    | none =>
      if h : i < existing.length then
        (if existing.get ⟨i, h⟩ ≠ "" then existing.get ⟨i, h⟩ else "")
      else ""

/-- The effective redo list: empty `drafts_to_redo` or a first iteration
means redo all three. -/
def effectiveRedo (state : AgentState) (iteration : Nat) : List Nat :=
  if state.drafts_to_redo = [] ∨ iteration = 1 then [1, 2, 3]
  else state.drafts_to_redo

/-- The chains actually built: one per generator index 1..3 that is a
member of the redo list (a dict keyed by draft_1..draft_3, so at most one
chain per index, in ascending order). -/
def chainIndices (redo : List Nat) : List Nat :=
  [1, 2, 3].filter (· ∈ redo)

/-- The partial state update returned by `generator_node`. -/
structure GeneratorUpdate where
  drafts : List String
  user_response : Option String
  iteration_count : Nat
  drafts_to_redo : List Nat
deriving Repr, DecidableEq

/-- Tail of `generator_node` after a successful fan-out: append the canned
revision requests, assemble drafts, and return the state update (counter
incremented, `user_response` and `drafts_to_redo` cleared). -/
def generator_finish (state : AgentState) (iteration : Nat) (redo : List Nat)
    (ss : Sessions) (results : List (Nat × String)) :
    Sessions × GeneratorUpdate :=
  (appendFixRequests redo ss,
   { drafts := assembleDrafts redo results state.drafts
     user_response := none
     iteration_count := iteration
     drafts_to_redo := [] })

/-- `generator_node` from `generator.py`.  `call a g` is the model call for
generator `g` on attempt `a` (0 = first, 1 = retry).  On any failure inside
the parallel invoke the code deletes the whole per-run session store
(`del _chat_sessions[chat_uuid]`), rebuilds the chains and retries once; a
second failure propagates out of the node. -/
def generator_node (call : Nat → Nat → Except Unit String) (ss : Sessions)
    (state : AgentState) : Except Unit (Sessions × GeneratorUpdate) :=
  match runChains (call 0) ss
      (chainIndices (effectiveRedo state (state.iteration_count + 1))) with
  | .ok (ss1, results) =>
    .ok (generator_finish state (state.iteration_count + 1)
      (effectiveRedo state (state.iteration_count + 1)) ss1 results)
  | .error _ =>
    match runChains (call 1) []
        (chainIndices (effectiveRedo state (state.iteration_count + 1))) with
    | .ok (ss1, results) =>
      .ok (generator_finish state (state.iteration_count + 1)
        (effectiveRedo state (state.iteration_count + 1)) ss1 results)
    | .error e => .error e

/-- LangGraph merge of a generator update into the run state (returned keys
overwrite their channels). -/
def applyGeneratorUpdate (s : AgentState) (u : GeneratorUpdate) : AgentState :=
  { s with drafts := u.drafts, user_response := u.user_response,
           iteration_count := u.iteration_count,
           drafts_to_redo := u.drafts_to_redo }

/-- LangGraph merge of a critic update into the run state. -/
def applyCriticUpdate (s : AgentState) (u : CriticUpdate) : AgentState :=
  { s with critiques := u.critiques,
           critiques_by_generator := u.critiques_by_generator,
           questions_for_user := u.questions_for_user,
           drafts_to_redo := u.drafts_to_redo }

/-- LangGraph merge of the editor update `{"final_summary": content}`. -/
def applyEditorUpdate (s : AgentState) (content : String) : AgentState :=
  { s with final_summary := some content }

/-- States observable at node boundaries: the graph's entry point is the
generator, after which any sequence of node updates may be merged (a
superset of the actual generator→critic→{generator,editor} wiring, so an
invariant proved over `Reached` holds at every boundary of a real run). -/
inductive Reached : AgentState → Prop
  | entry (init : AgentState) (call : Nat → Nat → Except Unit String)
      (ss ss' : Sessions) (u : GeneratorUpdate) :
      generator_node call ss init = .ok (ss', u) →
      Reached (applyGeneratorUpdate init u)
  | criticStep (s : AgentState) (decoded : Option CriticVerdict) (raw : String) :
      Reached s → Reached (applyCriticUpdate s (critic_node decoded raw))
  | genStep (s : AgentState) (call : Nat → Nat → Except Unit String)
      (ss ss' : Sessions) (u : GeneratorUpdate) :
      Reached s → generator_node call ss s = .ok (ss', u) →
      Reached (applyGeneratorUpdate s u)
  | editorStep (s : AgentState) (content : String) :
      Reached s → Reached (applyEditorUpdate s content)

/-! ### Session-store lemmas -/

theorem slookup_append_create (ss : Sessions) (g g' : Nat) :
    slookup (ss ++ [(g, [])]) g' =
      if g' = g then some ((slookup ss g').getD []) else slookup ss g' := by
  induction ss with
  | nil =>
    by_cases h : g' = g
    · subst h; simp [slookup]
    · have h2 : ¬g = g' := fun hh => h hh.symm
      simp [slookup, h, h2]
  | cons p rest ih =>
    obtain ⟨k, v⟩ := p
    by_cases hk : k = g'
    · subst hk; simp [slookup]
    · simpa [slookup, hk] using ih

theorem slookup_getOrCreate (ss : Sessions) (g g' : Nat) :
    slookup (getOrCreate ss g) g' =
      if g' = g then some ((slookup ss g').getD []) else slookup ss g' := by
  unfold getOrCreate
  by_cases h : (slookup ss g).isSome
  · obtain ⟨v, hv⟩ := Option.isSome_iff_exists.mp h
    by_cases hg : g' = g <;> simp [h, hg, hv]
  · simp [h, slookup_append_create]

theorem slookup_cons (k : Nat) (v : List Msg) (rest : Sessions) (g : Nat) :
    slookup ((k, v) :: rest) g = if k = g then some v else slookup rest g := rfl

theorem appendMsg_cons (k : Nat) (v : List Msg) (rest : Sessions) (g : Nat) (m : Msg) :
    appendMsg ((k, v) :: rest) g m =
      (if k = g then (k, v ++ [m]) else (k, v)) :: appendMsg rest g m := rfl

theorem slookup_appendMsg (ss : Sessions) (g : Nat) (m : Msg) (g' : Nat) :
    slookup (appendMsg ss g m) g' =
      if g' = g then (slookup ss g').map (· ++ [m]) else slookup ss g' := by
  induction ss with
  | nil => by_cases h : g' = g <;> simp [appendMsg, slookup, h]
  | cons p rest ih =>
    obtain ⟨k, v⟩ := p
    by_cases hpg : k = g
    · rw [appendMsg_cons, if_pos hpg]
      simp only [slookup_cons]
      by_cases hk' : k = g'
      · have hg' : g' = g := by rw [← hk', hpg]
        simp [hpg, hg']
      · simp only [if_neg hk', ih]
    · rw [appendMsg_cons, if_neg hpg]
      simp only [slookup_cons]
      by_cases hk' : k = g'
      · have hg' : ¬g' = g := fun hh => hpg (hk'.trans hh)
        simp [if_pos hk', if_neg hg']
      · simp only [if_neg hk', ih]

/-- One chain's combined session effect: create-if-absent then append. -/
theorem slookup_chain_step (ss : Sessions) (g : Nat) (m : Msg) (g' : Nat) :
    slookup (appendMsg (getOrCreate ss g) g m) g' =
      if g' = g then some ((slookup ss g').getD [] ++ [m]) else slookup ss g' := by
  rw [slookup_appendMsg]
  by_cases h : g' = g
  · subst h; rw [slookup_getOrCreate]; simp
  · simp [h, slookup_getOrCreate]

/-- Session effect of one turn of the post-fan-out loop. -/
theorem slookup_fixStep (ss : Sessions) (g g' : Nat) :
    slookup (fixStep ss g) g' =
      if g' = g then
        some (if (slookup ss g).getD [] = [] then (slookup ss g).getD []
              else (slookup ss g).getD [] ++ [("user", critic_fix_msg)])
      else slookup ss g' := by
  have hg : slookup (getOrCreate ss g) g = some ((slookup ss g).getD []) := by
    rw [slookup_getOrCreate]; simp
  unfold fixStep
  by_cases he : (slookup ss g).getD [] = []
  · rw [if_pos (by rw [hg]; simpa using he)]
    rw [slookup_getOrCreate]
    by_cases hgg : g' = g
    · subst hgg; rw [if_pos rfl, if_pos rfl, if_pos he, he]
    · rw [if_neg hgg, if_neg hgg]
  · rw [if_neg (by rw [hg]; simpa using he)]
    rw [slookup_appendMsg]
    by_cases hgg : g' = g
    · subst hgg; rw [if_pos rfl, if_pos rfl, hg, if_neg he]; rfl
    · rw [if_neg hgg, slookup_getOrCreate, if_neg hgg, if_neg hgg]

/-! ### Fan-out lemmas -/

theorem runChains_ok (call : Nat → Except Unit String) (r : Nat → String) :
    ∀ (idxs : List Nat) (ss : Sessions), idxs.Nodup →
    (∀ g ∈ idxs, call g = .ok (r g)) →
    ∃ ss', runChains call ss idxs = .ok (ss', idxs.map fun g => (g, r g)) ∧
      ∀ g', slookup ss' g' =
        if g' ∈ idxs then some ((slookup ss g').getD [] ++ [("assistant", r g')])
        else slookup ss g' := by
  intro idxs
  induction idxs with
  | nil => intro ss _ _; exact ⟨ss, rfl, by simp⟩
  | cons g rest ih =>
    intro ss hnd hcall
    have hg : call g = .ok (r g) := hcall g (by simp)
    have hnd' : rest.Nodup := (List.nodup_cons.mp hnd).2
    have hgrest : g ∉ rest := (List.nodup_cons.mp hnd).1
    obtain ⟨ss', hrun, hchar⟩ :=
      ih (appendMsg (getOrCreate ss g) g ("assistant", r g)) hnd'
        (fun g' hg' => hcall g' (by simp [hg']))
    refine ⟨ss', ?_, ?_⟩
    · simp only [runChains, hg, hrun, List.map_cons]
    · intro g'
      rw [hchar g']
      by_cases h : g' = g
      · subst h
        rw [if_neg hgrest, slookup_chain_step, if_pos rfl,
          if_pos (List.mem_cons_self g' rest)]
      · rw [slookup_chain_step, if_neg h]
        by_cases hr : g' ∈ rest
        · rw [if_pos hr, if_pos (List.mem_cons_of_mem g hr)]
        · rw [if_neg hr, if_neg (by simp [List.mem_cons, h, hr])]

theorem runChains_error (call : Nat → Except Unit String) :
    ∀ (idxs : List Nat) (ss : Sessions),
    (∃ g ∈ idxs, call g = .error ()) →
    runChains call ss idxs = .error () := by
  intro idxs
  induction idxs with
  | nil => intro ss h; simp at h
  | cons g rest ih =>
    intro ss h
    cases hg : call g with
    | error e =>
      cases e
      simp only [runChains, hg]
    | ok v =>
      obtain ⟨g', hmem, herr⟩ := h
      rcases List.mem_cons.mp hmem with h1 | h1
      · subst h1; rw [hg] at herr; cases herr
      · have hrec := ih (appendMsg (getOrCreate ss g) g ("assistant", v)) ⟨g', h1, herr⟩
        simp only [runChains, hg, hrec]

theorem slookup_appendFixRequests :
    ∀ (redo : List Nat) (ss : Sessions), redo.Nodup → ∀ g',
    slookup (appendFixRequests redo ss) g' =
      if g' ∈ redo then
        some (if (slookup ss g').getD [] = [] then (slookup ss g').getD []
              else (slookup ss g').getD [] ++ [("user", critic_fix_msg)])
      else slookup ss g' := by
  intro redo
  induction redo with
  | nil => intro ss _ g'; simp [appendFixRequests]
  | cons g rest ih =>
    intro ss hnd g'
    have hnd' : rest.Nodup := (List.nodup_cons.mp hnd).2
    have hgrest : g ∉ rest := (List.nodup_cons.mp hnd).1
    show slookup (appendFixRequests rest (fixStep ss g)) g' = _
    rw [ih _ hnd' g']
    by_cases h : g' = g
    · subst h
      rw [if_neg hgrest, slookup_fixStep, if_pos rfl,
        if_pos (List.mem_cons_self g' rest)]
    · rw [slookup_fixStep, if_neg h]
      by_cases hr : g' ∈ rest
      · rw [if_pos hr, if_pos (List.mem_cons_of_mem g hr)]
      · rw [if_neg hr, if_neg (by simp [List.mem_cons, h, hr])]

/-! ### Generator node lemmas -/

theorem chainIndices_nodup (redo : List Nat) : (chainIndices redo).Nodup :=
  List.Nodup.filter _ (by decide)

theorem mem_chainIndices {g : Nat} {redo : List Nat} :
    g ∈ chainIndices redo ↔ (g = 1 ∨ g = 2 ∨ g = 3) ∧ g ∈ redo := by
  simp [chainIndices, List.mem_filter]

theorem rlookup_map (r : Nat → String) :
    ∀ (idxs : List Nat) (g : Nat), g ∈ idxs →
    rlookup (idxs.map fun g' => (g', r g')) g = some (r g) := by
  intro idxs
  induction idxs with
  | nil => intro g h; cases h
  | cons a rest ih =>
    intro g h
    by_cases hag : a = g
    · subst hag; simp [rlookup]
    · rcases List.mem_cons.mp h with h1 | h1
      · exact absurd h1.symm hag
      · simp [rlookup, hag, ih g h1]

theorem range3 : List.range 3 = [0, 1, 2] := rfl

theorem assembleDrafts_length (redo : List Nat) (results : List (Nat × String))
    (existing : List String) :
    (assembleDrafts redo results existing).length = 3 := by
  simp [assembleDrafts]

theorem assembleDrafts_not_redo (redo : List Nat) (results : List (Nat × String))
    (a b c : String) (i : Nat) (hi : i < 3) (hmem : i + 1 ∉ redo) :
    (assembleDrafts redo results [a, b, c]).getD i "" = [a, b, c].getD i "" := by
  have h0 : ∀ (s : String), (if s ≠ "" then s else "") = s := by
    intro s; by_cases h : s = "" <;> simp [h]
  interval_cases i <;> simp [assembleDrafts, range3, hmem, h0]

theorem assembleDrafts_redo (redo : List Nat) (results : List (Nat × String))
    (existing : List String) (i : Nat) (hi : i < 3) (hmem : i + 1 ∈ redo)
    (v : String) (hres : rlookup results (i + 1) = some v) :
    (assembleDrafts redo results existing).getD i "" = v := by
  interval_cases i <;> simp [assembleDrafts, range3, hmem, hres]

theorem generator_node_ok_cases (call : Nat → Nat → Except Unit String)
    (ss : Sessions) (state : AgentState) (ss' : Sessions) (u : GeneratorUpdate)
    (hok : generator_node call ss state = .ok (ss', u)) :
    ∃ ss1 results,
      (ss', u) = generator_finish state (state.iteration_count + 1)
        (effectiveRedo state (state.iteration_count + 1)) ss1 results := by
  unfold generator_node at hok
  cases h0 : runChains (call 0) ss
      (chainIndices (effectiveRedo state (state.iteration_count + 1))) with
  | ok p =>
    obtain ⟨ss1, results⟩ := p
    rw [h0] at hok
    exact ⟨ss1, results, (Except.ok.inj hok).symm⟩
  | error e =>
    rw [h0] at hok
    cases h1 : runChains (call 1) []
        (chainIndices (effectiveRedo state (state.iteration_count + 1))) with
    | ok p =>
      obtain ⟨ss1, results⟩ := p
      rw [h1] at hok
      exact ⟨ss1, results, (Except.ok.inj hok).symm⟩
    | error e' =>
      rw [h1] at hok
      cases hok

/-! ### Flattening order -/

/-- The flattening the spec describes (§4.3): concatenate the per-generator
critique lists in ascending generator-index order.  Spec-side comparison
definition for mappings whose keys lie in {1, 2, 3}. -/
def ascendingFlatten (cbg : List (Nat × List String)) : List String :=
  ((cbg.filter fun p => p.1 = 1).map Prod.snd).flatten ++
  ((cbg.filter fun p => p.1 = 2).map Prod.snd).flatten ++
  ((cbg.filter fun p => p.1 = 3).map Prod.snd).flatten

theorem flatten_of_sorted :
    ∀ (cbg : List (Nat × List String)),
    (∀ p ∈ cbg, p.1 = 1 ∨ p.1 = 2 ∨ p.1 = 3) →
    cbg.Pairwise (fun p q => p.1 < q.1) →
    (cbg.map Prod.snd).flatten = ascendingFlatten cbg := by
  intro cbg
  induction cbg with
  | nil => intro _ _; simp [ascendingFlatten]
  | cons p rest ih =>
    intro hsub hpw
    have hrest_sub : ∀ q ∈ rest, q.1 = 1 ∨ q.1 = 2 ∨ q.1 = 3 :=
      fun q hq => hsub q (List.mem_cons_of_mem _ hq)
    have hlt : ∀ q ∈ rest, p.1 < q.1 := (List.pairwise_cons.mp hpw).1
    have ihr := ih hrest_sub (List.pairwise_cons.mp hpw).2
    rcases hsub p (List.mem_cons_self p rest) with h1 | h2 | h3
    · simp only [List.map_cons, List.flatten_cons, ihr, ascendingFlatten,
        List.filter_cons, h1]
      norm_num [List.append_assoc]
    · have hf1 : rest.filter (fun q => q.1 = 1) = [] := by
        rw [List.filter_eq_nil_iff]
        intro q hq
        have hq2 := hlt q hq
        simp only [decide_eq_true_eq]
        omega
      have hf2 : rest.filter (fun q => q.1 = 2) = [] := by
        rw [List.filter_eq_nil_iff]
        intro q hq
        have hq2 := hlt q hq
        simp only [decide_eq_true_eq]
        omega
      simp only [List.map_cons, List.flatten_cons, ihr, ascendingFlatten,
        List.filter_cons, h2, hf1, hf2]
      norm_num
    · have hrest : rest = [] := by
        cases rest with
        | nil => rfl
        | cons q t =>
          exfalso
          have hq2 := hlt q (List.mem_cons_self q t)
          rcases hrest_sub q (List.mem_cons_self q t) with hh | hh | hh <;> omega
      subst hrest
      simp [ascendingFlatten, List.filter_cons, h3]

/-! ### Claim C1 — decision priority order -/

/-- C1: `decide_next_step` evaluates its rules strictly in priority order:
non-empty `questions_for_user` always routes to `ask_user`; otherwise
reaching the iteration ceiling routes to `editor` even with pending
critiques; otherwise a non-empty flattened critique list routes to
`generator`; otherwise to `editor`.  Stated for every ceiling value, which
covers the configured `MAX_ITERATIONS`. -/
theorem decide_next_step_priority (m : Nat) (s : AgentState) :
    (s.questions_for_user ≠ [] → decide_next_step m s = "ask_user") ∧
    (s.questions_for_user = [] → m ≤ s.iteration_count →
      decide_next_step m s = "editor") ∧
    (s.questions_for_user = [] → s.iteration_count < m → s.critiques ≠ [] →
      decide_next_step m s = "generator") ∧
    (s.questions_for_user = [] → s.iteration_count < m → s.critiques = [] →
      decide_next_step m s = "editor") := by
  refine ⟨fun h1 => ?_, fun h1 h2 => ?_, fun h1 h2 h3 => ?_, fun h1 h2 h3 => ?_⟩
  · simp [decide_next_step, h1]
  · simp [decide_next_step, h1, ge_iff_le, h2]
  · simp [decide_next_step, h1, ge_iff_le, Nat.not_le.mpr h2, h3]
  · simp [decide_next_step, h1, ge_iff_le, Nat.not_le.mpr h2, h3]

def stC1a : AgentState :=
  { topic := "t", file_content := none, drafts := ["a", "b", "c"],
    critiques := ["x"], critiques_by_generator := [(1, ["x"])],
    questions_for_user := ["q"], user_response := none, final_summary := none,
    iteration_count := 9, drafts_to_redo := [1], log_filename := "l",
    chat_uuid := "u" }

def stC1b : AgentState := { stC1a with questions_for_user := [], iteration_count := 3 }

def stC1c : AgentState := { stC1a with questions_for_user := [], iteration_count := 1 }

def stC1d : AgentState :=
  { stC1a with questions_for_user := [], iteration_count := 1, critiques := [] }

/-- Witness for C1: each priority rule exercised at a concrete state with
ceiling 3. -/
theorem decide_next_step_priority_witness :
    decide_next_step 3 stC1a = "ask_user" ∧ decide_next_step 3 stC1b = "editor" ∧
    decide_next_step 3 stC1c = "generator" ∧ decide_next_step 3 stC1d = "editor" :=
  ⟨(decide_next_step_priority 3 stC1a).1 (by decide),
   (decide_next_step_priority 3 stC1b).2.1 (by decide) (by decide),
   (decide_next_step_priority 3 stC1c).2.2.1 (by decide) (by decide) (by decide),
   (decide_next_step_priority 3 stC1d).2.2.2 (by decide) (by decide) (by decide)⟩

/-! ### Claim C2 — critic decode-failure fail-safe -/

/-- C2: on a decode failure the critic does not drop the cycle: the raw
response text becomes the single critique applied identically to all three
generator indices, the flattened list is exactly `[raw]`, the redo set is
`[1, 2, 3]`, and no user questions are raised. -/
theorem critic_node_decode_failure (raw : String) :
    critic_node none raw =
      { critiques := [raw]
        critiques_by_generator := [(1, [raw]), (2, [raw]), (3, [raw])]
        questions_for_user := []
        drafts_to_redo := [1, 2, 3] } := rfl

/-! ### Claim C5 — missing redo list -/

def vC5 : CriticVerdict :=
  { critiques_by_generator := some [(1, ["needs work"])]
    questions_for_user := none
    drafts_to_redo := none }

/-- C5 counterexample: a decoded verdict with a critique for generator 1
but no explicit redo-index list yields the empty redo set, not the derived
set `[1]` of indices with at least one critique. -/
theorem critic_node_missing_redo_cex :
    (critic_node (some vC5) "raw").drafts_to_redo = [] ∧
    (critic_node (some vC5) "raw").drafts_to_redo ≠ [1] := by
  constructor <;> decide

/-- C5 amended: `critic_node` defaults a missing redo-index list to the
empty list — it is not derived from the critique mapping; the redo-all
reading of the empty list only happens downstream, where the generator
stage's effective redo list is `[1, 2, 3]` whenever `drafts_to_redo` is
empty. -/
theorem critic_node_missing_redo_defaults_empty :
    (∀ (v : CriticVerdict) (raw : String), v.drafts_to_redo = none →
      (critic_node (some v) raw).drafts_to_redo = []) ∧
    (∀ (st : AgentState) (it : Nat), st.drafts_to_redo = [] →
      effectiveRedo st it = [1, 2, 3]) := by
  constructor
  · intro v raw h
    simp [critic_node, h]
  · intro st it h
    simp [effectiveRedo, h]

/-- Witness for C5 amended. -/
theorem critic_node_missing_redo_defaults_empty_witness :
    (critic_node (some vC5) "raw").drafts_to_redo = [] :=
  critic_node_missing_redo_defaults_empty.1 vC5 "raw" rfl

/-! ### Claim C6 — flattening order -/

def vC6 : CriticVerdict :=
  { critiques_by_generator := some [(2, ["b"]), (1, ["a"])]
    questions_for_user := none
    drafts_to_redo := none }

/-- C6 counterexample: with decoded keys appearing in the order 2, 1, the
flattened list follows insertion order, `["b", "a"]`, not ascending
generator-index order `["a", "b"]`. -/
theorem critic_node_flatten_order_cex :
    (critic_node (some vC6) "raw").critiques = ["b", "a"] ∧
    (critic_node (some vC6) "raw").critiques ≠ ["a", "b"] := by
  constructor <;> decide

/-- C6 amended: the flattened list concatenates the per-generator critique
lists in the order their keys appear in the decoded mapping (dict insertion
order); this coincides with the ascending generator-index concatenation
exactly when the keys happen to appear in ascending order. -/
theorem critic_node_flatten_insertion_order (v : CriticVerdict) (raw : String)
    (cbg : List (Nat × List String)) (hv : v.critiques_by_generator = some cbg)
    (hsub : ∀ p ∈ cbg, p.1 = 1 ∨ p.1 = 2 ∨ p.1 = 3)
    (hsorted : cbg.Pairwise (fun p q => p.1 < q.1)) :
    (critic_node (some v) raw).critiques = ascendingFlatten cbg := by
  have hproj : (critic_node (some v) raw).critiques = (cbg.map Prod.snd).flatten := by
    simp [critic_node, hv]
  rw [hproj, flatten_of_sorted cbg hsub hsorted]

def vC6w : CriticVerdict :=
  { critiques_by_generator := some [(1, ["a"]), (3, ["c1", "c2"])]
    questions_for_user := none
    drafts_to_redo := none }

/-- Witness for C6 amended: ascending keys 1, 3. -/
theorem critic_node_flatten_insertion_order_witness :
    (critic_node (some vC6w) "raw").critiques =
      ascendingFlatten [(1, ["a"]), (3, ["c1", "c2"])] :=
  critic_node_flatten_insertion_order vC6w "raw" [(1, ["a"]), (3, ["c1", "c2"])]
    rfl (by decide) (by decide)

/-! ### Claim C10 — flattened view stays populated -/

def vC10 : CriticVerdict :=
  { critiques_by_generator := some [(1, [])]
    questions_for_user := none
    drafts_to_redo := none }

/-- C10 counterexample: the decoded mapping `{1: []}` is non-empty while
the flattened critique list comes out empty. -/
theorem critic_node_flat_empty_cex :
    (critic_node (some vC10) "raw").critiques_by_generator ≠ [] ∧
    (critic_node (some vC10) "raw").critiques = [] := by
  constructor <;> decide

/-- C10 amended: after either critic branch, the flattened list is
non-empty whenever some per-generator critique list of the returned mapping
is non-empty (on parse failure both views are non-empty); a non-empty
mapping whose lists are all empty flattens to the empty list. -/
theorem critic_node_flat_nonempty (decoded : Option CriticVerdict)
    (raw : String)
    (h : ∃ p ∈ (critic_node decoded raw).critiques_by_generator, p.2 ≠ []) :
    (critic_node decoded raw).critiques ≠ [] := by
  cases decoded with
  | none => simp [critic_node]
  | some v =>
    obtain ⟨p, hp, hpne⟩ := h
    obtain ⟨a, ha⟩ := List.exists_mem_of_ne_nil p.2 hpne
    have hmem : a ∈ ((v.critiques_by_generator.getD []).map Prod.snd).flatten :=
      List.mem_flatten.mpr ⟨p.2, List.mem_map.mpr ⟨p, hp, rfl⟩, ha⟩
    have hproj : (critic_node (some v) raw).critiques =
        ((v.critiques_by_generator.getD []).map Prod.snd).flatten := rfl
    rw [hproj]
    exact List.ne_nil_of_mem hmem

def vC10w : CriticVerdict :=
  { critiques_by_generator := some [(2, []), (3, ["c"])]
    questions_for_user := none
    drafts_to_redo := none }

/-- Witness for C10 amended. -/
theorem critic_node_flat_nonempty_witness :
    (critic_node (some vC10w) "raw").critiques ≠ [] :=
  critic_node_flat_nonempty (some vC10w) "raw" ⟨(3, ["c"]), by decide, by decide⟩

/-! ### Generator node evaluation helpers -/

theorem generator_finish_update (state : AgentState) (it : Nat) (redo : List Nat)
    (ss : Sessions) (results : List (Nat × String)) :
    (generator_finish state it redo ss results).2 =
      { drafts := assembleDrafts redo results state.drafts
        user_response := none
        iteration_count := it
        drafts_to_redo := [] } := rfl

theorem generator_node_eq_finish (call : Nat → Nat → Except Unit String)
    (ss : Sessions) (state : AgentState) (ss1 : Sessions)
    (results : List (Nat × String))
    (h0 : runChains (call 0) ss
      (chainIndices (effectiveRedo state (state.iteration_count + 1))) =
      .ok (ss1, results)) :
    generator_node call ss state =
      .ok (generator_finish state (state.iteration_count + 1)
        (effectiveRedo state (state.iteration_count + 1)) ss1 results) := by
  unfold generator_node
  rw [h0]

theorem generator_node_eq_retry (call : Nat → Nat → Except Unit String)
    (ss : Sessions) (state : AgentState)
    (h0 : runChains (call 0) ss
      (chainIndices (effectiveRedo state (state.iteration_count + 1))) =
      .error ()) :
    generator_node call ss state =
      match runChains (call 1) []
          (chainIndices (effectiveRedo state (state.iteration_count + 1))) with
      | .ok (ss1, results) =>
        .ok (generator_finish state (state.iteration_count + 1)
          (effectiveRedo state (state.iteration_count + 1)) ss1 results)
      | .error e => .error e := by
  unfold generator_node
  rw [h0]

theorem generator_node_eq_retry_finish (call : Nat → Nat → Except Unit String)
    (ss : Sessions) (state : AgentState) (ss1 : Sessions)
    (results : List (Nat × String))
    (h0 : runChains (call 0) ss
      (chainIndices (effectiveRedo state (state.iteration_count + 1))) =
      .error ())
    (h1 : runChains (call 1) []
      (chainIndices (effectiveRedo state (state.iteration_count + 1))) =
      .ok (ss1, results)) :
    generator_node call ss state =
      .ok (generator_finish state (state.iteration_count + 1)
        (effectiveRedo state (state.iteration_count + 1)) ss1 results) := by
  rw [generator_node_eq_retry call ss state h0, h1]

theorem generator_node_eq_retry_error (call : Nat → Nat → Except Unit String)
    (ss : Sessions) (state : AgentState)
    (h0 : runChains (call 0) ss
      (chainIndices (effectiveRedo state (state.iteration_count + 1))) =
      .error ())
    (h1 : runChains (call 1) []
      (chainIndices (effectiveRedo state (state.iteration_count + 1))) =
      .error ()) :
    generator_node call ss state = .error () := by
  rw [generator_node_eq_retry call ss state h0, h1]

/-! ### Claim C7 — generator output frame -/

/-- C7: every successful generator execution returns an update whose
iteration count is the incoming value plus exactly one, whose
`user_response` is cleared to `none`, whose `drafts_to_redo` is cleared to
empty, and whose length-3 drafts list keeps every slot outside the
effective redo list at its previous content; in particular a resumed run's
`user_response` is cleared after the next generator cycle without the
iteration count being reset. -/
theorem generator_node_frame (call : Nat → Nat → Except Unit String)
    (ss : Sessions) (state : AgentState) (ss' : Sessions) (u : GeneratorUpdate)
    (hlen : state.drafts.length = 3)
    (hok : generator_node call ss state = .ok (ss', u)) :
    u.iteration_count = state.iteration_count + 1 ∧
    u.user_response = none ∧
    u.drafts_to_redo = [] ∧
    u.drafts.length = 3 ∧
    ∀ i, i < 3 → i + 1 ∉ effectiveRedo state (state.iteration_count + 1) →
      u.drafts.getD i "" = state.drafts.getD i "" := by
  obtain ⟨ss1, results, heq⟩ := generator_node_ok_cases call ss state ss' u hok
  have hu : u = (generator_finish state (state.iteration_count + 1)
      (effectiveRedo state (state.iteration_count + 1)) ss1 results).2 :=
    congrArg Prod.snd heq
  rw [generator_finish_update] at hu
  subst hu
  obtain ⟨a, b, c, habc⟩ := List.length_eq_three.mp hlen
  refine ⟨rfl, rfl, rfl, assembleDrafts_length _ _ _, ?_⟩
  intro i hi hmem
  show (assembleDrafts _ results state.drafts).getD i "" = _
  rw [habc]
  exact assembleDrafts_not_redo _ results a b c i hi hmem

def stC7 : AgentState :=
  { topic := "t", file_content := none, drafts := ["A", "B", "C"],
    critiques := ["fix 2"], critiques_by_generator := [(2, ["fix 2"])],
    questions_for_user := [], user_response := some "ans", final_summary := none,
    iteration_count := 1, drafts_to_redo := [2], log_filename := "l",
    chat_uuid := "u" }

def callC7 : Nat → Nat → Except Unit String := fun _ _ => .ok "N"

def ssC7 : Sessions := [(2, [("assistant", "N"), ("user", critic_fix_msg)])]

def updC7 : GeneratorUpdate :=
  { drafts := ["A", "N", "C"], user_response := none, iteration_count := 2,
    drafts_to_redo := [] }

/-- Witness for C7: redo `{2}` over drafts `["A", "B", "C"]` yields
`["A", <new>, "C"]`, iteration 1 → 2, `user_response` cleared. -/
theorem generator_node_frame_witness :
    updC7.iteration_count = stC7.iteration_count + 1 ∧
    updC7.user_response = none ∧
    updC7.drafts_to_redo = [] ∧
    updC7.drafts.length = 3 ∧
    updC7.drafts.getD 0 "" = stC7.drafts.getD 0 "" ∧
    updC7.drafts.getD 2 "" = stC7.drafts.getD 2 "" := by
  obtain ⟨h1, h2, h3, h4, h5⟩ :=
    generator_node_frame callC7 [] stC7 ssC7 updC7 (by decide) (by rfl)
  exact ⟨h1, h2, h3, h4, h5 0 (by decide) (by decide), h5 2 (by decide) (by decide)⟩

/-! ### Claim C8 — drafts length invariant -/

theorem generator_node_ok_length (call : Nat → Nat → Except Unit String)
    (ss : Sessions) (state : AgentState) (ss' : Sessions) (u : GeneratorUpdate)
    (hok : generator_node call ss state = .ok (ss', u)) :
    u.drafts.length = 3 := by
  obtain ⟨ss1, results, heq⟩ := generator_node_ok_cases call ss state ss' u hok
  have hu : u = (generator_finish state (state.iteration_count + 1)
      (effectiveRedo state (state.iteration_count + 1)) ss1 results).2 :=
    congrArg Prod.snd heq
  rw [generator_finish_update] at hu
  rw [hu]
  exact assembleDrafts_length _ _ _

/-- C8: at every observable state boundary — the merged state after each
graph node execution, the entry node being the generator — `drafts` has
length exactly 3 (so no slot is ever absent; unset slots are the empty
string by construction of the assembly). -/
theorem reached_drafts_length_three (s : AgentState) (h : Reached s) :
    s.drafts.length = 3 := by
  induction h with
  | entry init call ss ss' u hok =>
    exact generator_node_ok_length call ss init ss' u hok
  | criticStep s decoded raw hr ih => exact ih
  | genStep s call ss ss' u hr hok ih =>
    exact generator_node_ok_length call ss s ss' u hok
  | editorStep s content hr ih => exact ih

def stC8 : AgentState :=
  { topic := "fresh topic", file_content := none, drafts := [],
    critiques := [], critiques_by_generator := [],
    questions_for_user := [], user_response := none, final_summary := none,
    iteration_count := 0, drafts_to_redo := [], log_filename := "l",
    chat_uuid := "u" }

def callC8 : Nat → Nat → Except Unit String := fun _ _ => .ok "D"

def ssC8 : Sessions :=
  [(1, [("assistant", "D"), ("user", critic_fix_msg)]),
   (2, [("assistant", "D"), ("user", critic_fix_msg)]),
   (3, [("assistant", "D"), ("user", critic_fix_msg)])]

def updC8 : GeneratorUpdate :=
  { drafts := ["D", "D", "D"], user_response := none, iteration_count := 1,
    drafts_to_redo := [] }

/-- Witness for C8: the boundary state after a fresh run's first generator
execution (whose input state still had `drafts = []`). -/
theorem reached_drafts_length_three_witness :
    (applyGeneratorUpdate stC8 updC8).drafts.length = 3 :=
  reached_drafts_length_three (applyGeneratorUpdate stC8 updC8)
    (Reached.entry stC8 callC8 [] ssC8 updC8 (by rfl))

/-! ### Claim C9 — session lifecycle -/

/-- C9: on a cycle whose first-attempt calls all succeed, each redo-index
session is created lazily if absent and gains exactly two entries — the
model response (role `assistant`) and the canned revision request (role
`user`) — while the sessions of indices outside the redo list are left
untouched.  Stated for redo lists that are duplicate-free subsets of
{1, 2, 3}, i.e. redo *sets* as the spec defines them. -/
theorem generator_node_session_growth (call : Nat → Nat → Except Unit String)
    (ss : Sessions) (state : AgentState) (ss' : Sessions) (u : GeneratorUpdate)
    (r : Nat → String)
    (hnd : (effectiveRedo state (state.iteration_count + 1)).Nodup)
    (hsub : ∀ g ∈ effectiveRedo state (state.iteration_count + 1),
      g = 1 ∨ g = 2 ∨ g = 3)
    (hcall : ∀ g ∈ effectiveRedo state (state.iteration_count + 1),
      call 0 g = .ok (r g))
    (hok : generator_node call ss state = .ok (ss', u)) :
    (∀ g ∈ effectiveRedo state (state.iteration_count + 1),
      slookup ss' g = some ((slookup ss g).getD [] ++
        [("assistant", r g), ("user", critic_fix_msg)])) ∧
    (∀ g, g ∉ effectiveRedo state (state.iteration_count + 1) →
      slookup ss' g = slookup ss g) := by
  have hcall' : ∀ g ∈ chainIndices (effectiveRedo state (state.iteration_count + 1)),
      call 0 g = .ok (r g) :=
    fun g hg => hcall g (mem_chainIndices.mp hg).2
  obtain ⟨ss1, hrun, hchar⟩ := runChains_ok (call 0) r
    (chainIndices (effectiveRedo state (state.iteration_count + 1))) ss
    (chainIndices_nodup _) hcall'
  have hgen := generator_node_eq_finish call ss state ss1 _ hrun
  rw [hgen] at hok
  have hsplit := Except.ok.inj hok
  have hss' : appendFixRequests (effectiveRedo state (state.iteration_count + 1))
      ss1 = ss' := congrArg Prod.fst hsplit
  constructor
  · intro g hg
    have hgc : g ∈ chainIndices (effectiveRedo state (state.iteration_count + 1)) :=
      mem_chainIndices.mpr ⟨hsub g hg, hg⟩
    rw [← hss', slookup_appendFixRequests _ ss1 hnd g, if_pos hg, hchar g,
      if_pos hgc]
    simp [List.append_assoc]
  · intro g hg
    have hgc : g ∉ chainIndices (effectiveRedo state (state.iteration_count + 1)) :=
      fun hc => hg (mem_chainIndices.mp hc).2
    rw [← hss', slookup_appendFixRequests _ ss1 hnd g, if_neg hg, hchar g,
      if_neg hgc]

def stC9 : AgentState :=
  { topic := "t", file_content := none, drafts := ["A", "B", "C"],
    critiques := ["fix 2"], critiques_by_generator := [(2, ["fix 2"])],
    questions_for_user := [], user_response := none, final_summary := none,
    iteration_count := 2, drafts_to_redo := [2], log_filename := "l",
    chat_uuid := "u" }

def callC9 : Nat → Nat → Except Unit String := fun _ _ => .ok "B2"

/-- Pre-existing sessions: one request/response pair for each index. -/
def ssC9 : Sessions :=
  [(1, [("assistant", "A"), ("user", critic_fix_msg)]),
   (2, [("assistant", "B"), ("user", critic_fix_msg)]),
   (3, [("assistant", "C"), ("user", critic_fix_msg)])]

def ssC9' : Sessions :=
  [(1, [("assistant", "A"), ("user", critic_fix_msg)]),
   (2, [("assistant", "B"), ("user", critic_fix_msg),
        ("assistant", "B2"), ("user", critic_fix_msg)]),
   (3, [("assistant", "C"), ("user", critic_fix_msg)])]

def updC9 : GeneratorUpdate :=
  { drafts := ["A", "B2", "C"], user_response := none, iteration_count := 3,
    drafts_to_redo := [] }

/-- Witness for C9: after a cycle redoing only index 2, index 2's session
grew from 2 to 4 entries and the sessions of indices 1 and 3 are
untouched. -/
theorem generator_node_session_growth_witness :
    slookup ssC9' 2 = some ((slookup ssC9 2).getD [] ++
      [("assistant", "B2"), ("user", critic_fix_msg)]) ∧
    slookup ssC9' 1 = slookup ssC9 1 ∧
    slookup ssC9' 3 = slookup ssC9 3 := by
  obtain ⟨hin, hout⟩ := generator_node_session_growth callC9 ssC9 stC9 ssC9' updC9
    (fun _ => "B2") (by decide) (by decide)
    (by intro g hg; rfl) (by rfl)
  exact ⟨hin 2 (by decide), hout 1 (by decide), hout 3 (by decide)⟩

/-! ### Claim C3 — call-failure policy -/

def stC3 : AgentState :=
  { topic := "t", file_content := none, drafts := ["A", "B", "C"],
    critiques := ["x"], critiques_by_generator := [(1, ["x"]), (2, ["x"]), (3, ["x"])],
    questions_for_user := [], user_response := none, final_summary := none,
    iteration_count := 1, drafts_to_redo := [1, 2, 3], log_filename := "l",
    chat_uuid := "u" }

/-- Call oracle failing only for generator index 3, on every attempt. -/
def callC3 : Nat → Nat → Except Unit String :=
  fun _ g => if g = 3 then .error () else .ok "new"

/-- C3 counterexample: with a `CallError` only for index 3 during a
three-way redo, `generator_node` raises out of the node instead of
completing the cycle with drafts 1 and 2 updated and the stale draft 3 —
the session wipe-and-retry hits the same error and the error escalates. -/
theorem generator_node_failure_escalates_cex :
    generator_node callC3 [(1, [("assistant", "old"), ("user", critic_fix_msg)])]
      stC3 = .error () := by rfl

/-- C3 amended: on a call error for any redo index, `generator_node`
deletes the sessions of *all* indices of the run (not only the failing
one), rebuilds the chains and retries the whole redo set once from fresh
sessions; if the retry also fails, the error escalates and no state update
is produced; if the retry succeeds, every redo index's draft is the fresh
retry response (the failing index's draft is updated, not stale) with a
fresh two-entry session, while every other index's session stays
deleted. -/
theorem generator_node_call_error_policy (call : Nat → Nat → Except Unit String)
    (ss : Sessions) (state : AgentState)
    (hnd : (effectiveRedo state (state.iteration_count + 1)).Nodup)
    (hsub : ∀ g ∈ effectiveRedo state (state.iteration_count + 1),
      g = 1 ∨ g = 2 ∨ g = 3)
    (hfail : ∃ g ∈ effectiveRedo state (state.iteration_count + 1),
      call 0 g = .error ()) :
    ((∃ g ∈ effectiveRedo state (state.iteration_count + 1),
        call 1 g = .error ()) →
      generator_node call ss state = .error ()) ∧
    (∀ (r : Nat → String),
      (∀ g ∈ effectiveRedo state (state.iteration_count + 1),
        call 1 g = .ok (r g)) →
      ∀ (ss' : Sessions) (u : GeneratorUpdate),
        generator_node call ss state = .ok (ss', u) →
        (∀ g ∈ effectiveRedo state (state.iteration_count + 1),
          slookup ss' g = some [("assistant", r g), ("user", critic_fix_msg)]) ∧
        (∀ g, g ∉ effectiveRedo state (state.iteration_count + 1) →
          slookup ss' g = none) ∧
        (∀ i, i < 3 → i + 1 ∈ effectiveRedo state (state.iteration_count + 1) →
          u.drafts.getD i "" = r (i + 1))) := by
  obtain ⟨gf, hgf, hgferr⟩ := hfail
  have hgfc : gf ∈ chainIndices (effectiveRedo state (state.iteration_count + 1)) :=
    mem_chainIndices.mpr ⟨hsub gf hgf, hgf⟩
  have h0 : runChains (call 0) ss
      (chainIndices (effectiveRedo state (state.iteration_count + 1))) =
      .error () :=
    runChains_error (call 0) _ ss ⟨gf, hgfc, hgferr⟩
  constructor
  · rintro ⟨g1, hg1, hg1err⟩
    have hg1c : g1 ∈ chainIndices (effectiveRedo state (state.iteration_count + 1)) :=
      mem_chainIndices.mpr ⟨hsub g1 hg1, hg1⟩
    exact generator_node_eq_retry_error call ss state h0
      (runChains_error (call 1) _ [] ⟨g1, hg1c, hg1err⟩)
  · intro r hretry ss' u hok
    have hretry' : ∀ g ∈ chainIndices (effectiveRedo state (state.iteration_count + 1)),
        call 1 g = .ok (r g) :=
      fun g hg => hretry g (mem_chainIndices.mp hg).2
    obtain ⟨ss1, hrun, hchar⟩ := runChains_ok (call 1) r
      (chainIndices (effectiveRedo state (state.iteration_count + 1))) []
      (chainIndices_nodup _) hretry'
    have hgen := generator_node_eq_retry_finish call ss state ss1 _ h0 hrun
    rw [hgen] at hok
    have hsplit := Except.ok.inj hok
    have hss' : appendFixRequests (effectiveRedo state (state.iteration_count + 1))
        ss1 = ss' := congrArg Prod.fst hsplit
    have hu : (generator_finish state (state.iteration_count + 1)
        (effectiveRedo state (state.iteration_count + 1)) ss1
        ((chainIndices (effectiveRedo state (state.iteration_count + 1))).map
          fun g => (g, r g))).2 = u := congrArg Prod.snd hsplit
    refine ⟨?_, ?_, ?_⟩
    · intro g hg
      have hgc : g ∈ chainIndices (effectiveRedo state (state.iteration_count + 1)) :=
        mem_chainIndices.mpr ⟨hsub g hg, hg⟩
      rw [← hss', slookup_appendFixRequests _ ss1 hnd g, if_pos hg, hchar g,
        if_pos hgc]
      simp [slookup]
    · intro g hg
      have hgc : g ∉ chainIndices (effectiveRedo state (state.iteration_count + 1)) :=
        fun hc => hg (mem_chainIndices.mp hc).2
      rw [← hss', slookup_appendFixRequests _ ss1 hnd g, if_neg hg, hchar g,
        if_neg hgc]
      rfl
    · intro i hi hmem
      have hic : i + 1 ∈ chainIndices (effectiveRedo state (state.iteration_count + 1)) :=
        mem_chainIndices.mpr ⟨by omega, hmem⟩
      rw [← hu, generator_finish_update]
      exact assembleDrafts_redo _ _ state.drafts i hi hmem (r (i + 1))
        (rlookup_map r _ (i + 1) hic)

/-- Call oracle failing for index 3 only on the first attempt. -/
def callC3w : Nat → Nat → Except Unit String :=
  fun a g => if a = 0 ∧ g = 3 then .error () else .ok "retry"

/-- Pre-existing session for index 1, to be wiped by the failure. -/
def ssC3pre : Sessions := [(1, [("assistant", "old"), ("user", critic_fix_msg)])]

def ssC3w : Sessions :=
  [(1, [("assistant", "retry"), ("user", critic_fix_msg)]),
   (2, [("assistant", "retry"), ("user", critic_fix_msg)]),
   (3, [("assistant", "retry"), ("user", critic_fix_msg)])]

def updC3w : GeneratorUpdate :=
  { drafts := ["retry", "retry", "retry"], user_response := none,
    iteration_count := 2, drafts_to_redo := [] }

/-- Witness for C3 amended: attempt-0 failure on index 3, retry succeeds;
index 1's pre-existing session is replaced by a fresh two-entry history,
index 3's draft is the retry response, and no alien session remains. -/
theorem generator_node_call_error_policy_witness :
    slookup ssC3w 3 = some [("assistant", "retry"), ("user", critic_fix_msg)] ∧
    slookup ssC3w 1 = some [("assistant", "retry"), ("user", critic_fix_msg)] ∧
    slookup ssC3w 9 = none ∧
    updC3w.drafts.getD 2 "" = "retry" := by
  obtain ⟨hin, hout, hdrafts⟩ :=
    (generator_node_call_error_policy callC3w ssC3pre stC3 (by decide) (by decide)
      ⟨3, by decide, by rfl⟩).2 (fun _ => "retry")
      (by
        intro g hg
        have h3 : g = 1 ∨ g = 2 ∨ g = 3 := by
          have he : effectiveRedo stC3 (stC3.iteration_count + 1) = [1, 2, 3] := rfl
          rw [he] at hg
          simpa using hg
        rcases h3 with rfl | rfl | rfl <;> rfl)
      ssC3w updC3w (by rfl)
  exact ⟨hin 3 (by decide), hin 1 (by decide), hout 9 (by decide),
    hdrafts 2 (by decide) (by decide)⟩

/-! ### Claim C4 — empty redo list on a later cycle -/

def stC4 : AgentState :=
  { topic := "t", file_content := none, drafts := ["A", "B", "C"],
    critiques := ["x"], critiques_by_generator := [(1, ["x"])],
    questions_for_user := [], user_response := none, final_summary := none,
    iteration_count := 1, drafts_to_redo := [], log_filename := "l",
    chat_uuid := "u" }

def callC4 : Nat → Nat → Except Unit String := fun _ _ => .ok "N"

def ssC4 : Sessions :=
  [(1, [("assistant", "N"), ("user", critic_fix_msg)]),
   (2, [("assistant", "N"), ("user", critic_fix_msg)]),
   (3, [("assistant", "N"), ("user", critic_fix_msg)])]

def updC4 : GeneratorUpdate :=
  { drafts := ["N", "N", "N"], user_response := none, iteration_count := 2,
    drafts_to_redo := [] }

/-- C4 counterexample: on a later cycle (incoming `iteration_count = 1`,
new iteration 2) with an empty `drafts_to_redo`, `generator_node` redoes
all three drafts instead of carrying `["A", "B", "C"]` forward
unchanged. -/
theorem generator_node_empty_redo_cex :
    generator_node callC4 [] stC4 = .ok (ssC4, updC4) ∧
    updC4.drafts ≠ stC4.drafts := by
  exact ⟨by rfl, by decide⟩

/-- C4 amended: an empty `drafts_to_redo` is treated as "redo all" on
*every* cycle, not only the first: whatever the incoming iteration count,
the effective redo list is `[1, 2, 3]` and, when the calls succeed, all
three draft slots of the returned update are the fresh responses. -/
theorem generator_node_empty_redo_redoes_all
    (call : Nat → Nat → Except Unit String) (ss : Sessions)
    (state : AgentState) (r : Nat → String)
    (hempty : state.drafts_to_redo = [])
    (hcall : ∀ g, (g = 1 ∨ g = 2 ∨ g = 3) → call 0 g = .ok (r g)) :
    effectiveRedo state (state.iteration_count + 1) = [1, 2, 3] ∧
    ∀ (ss' : Sessions) (u : GeneratorUpdate),
      generator_node call ss state = .ok (ss', u) →
      u.drafts = [r 1, r 2, r 3] := by
  have hredo : effectiveRedo state (state.iteration_count + 1) = [1, 2, 3] := by
    simp [effectiveRedo, hempty]
  refine ⟨hredo, ?_⟩
  intro ss' u hok
  obtain ⟨ss1, hrun, _⟩ := runChains_ok (call 0) r [1, 2, 3] ss (by decide)
    (by intro g hg; apply hcall; simpa using hg)
  have hchain : chainIndices (effectiveRedo state (state.iteration_count + 1)) =
      [1, 2, 3] := by
    rw [hredo]; rfl
  have hgen := generator_node_eq_finish call ss state ss1 _ (by rw [hchain]; exact hrun)
  rw [hgen] at hok
  have hu : (generator_finish state (state.iteration_count + 1)
      (effectiveRedo state (state.iteration_count + 1)) ss1
      ([1, 2, 3].map fun g => (g, r g))).2 = u :=
    congrArg Prod.snd (Except.ok.inj hok)
  rw [← hu, generator_finish_update]
  show assembleDrafts (effectiveRedo state (state.iteration_count + 1)) _ state.drafts
    = [r 1, r 2, r 3]
  rw [hredo]
  rfl

/-- Witness for C4 amended, at the counterexample's later-cycle state. -/
theorem generator_node_empty_redo_redoes_all_witness :
    effectiveRedo stC4 (stC4.iteration_count + 1) = [1, 2, 3] ∧
    updC4.drafts = ["N", "N", "N"] := by
  obtain ⟨h1, h2⟩ := generator_node_empty_redo_redoes_all callC4 [] stC4
    (fun _ => "N") rfl (fun g _ => rfl)
  exact ⟨h1, h2 ssC4 updC4 (by rfl)⟩
